import Mathlib

/-!
Shallow embedding of the TrustCircles contract (community micro-lending:
trust circles, per-member credit scores, loan lifecycle).  Addresses are
modelled as naturals with 0 playing the role of the zero address, wei
amounts and timestamps as naturals, and each Solidity mapping as a total
function with the zero-initialised struct as default.  Every external
function becomes a Lean function returning `Option State`: `none` models a
revert (all guard failures leave the state unmodified, exactly as the
EVM rolls back every write of a reverted call).  The contract balance is
tracked explicitly: payable calls add `msg.value` on entry and
`transfer` subtracts.
-/

namespace TrustCircles

-- Constants from the contract source.
def MIN_CIRCLE_MEMBERS : Nat := 3
def STARTING_SCORE : Nat := 50
def MAX_SCORE : Nat := 100
def MIN_STAKE : Nat := 500000000000000000
def oneDay : Nat := 86400
def LOAN_DURATION : Nat := 7 * oneDay
def INDIVIDUAL_WEIGHT : Nat := 60
def CIRCLE_WEIGHT : Nat := 40
def ON_TIME_BONUS : Nat := 10
def EARLY_BONUS : Nat := 15
def LATE_PENALTY : Nat := 5
def DEFAULT_PENALTY : Nat := 50
def CIRCLE_DEFAULT_PENALTY : Nat := 20
def etherUnit : Nat := 1000000000000000000

structure Circle where
  id : Nat
  name : String
  members : List Nat
  totalStake : Nat
  createdAt : Nat
  isActive : Bool
deriving Repr

structure MemberData where
  circleId : Nat
  individualScore : Nat
  trustBond : Nat
  totalBorrowed : Nat
  totalRepaid : Nat
  loansCompleted : Nat
  isActive : Bool
  hasActiveLoan : Bool
deriving Repr

structure Loan where
  id : Nat
  borrower : Nat
  amount : Nat
  interestAmount : Nat
  totalRepayment : Nat
  requestTime : Nat
  approvalTime : Nat
  disbursementTime : Nat
  dueDate : Nat
  repaymentTime : Nat
  approved : Bool
  disbursed : Bool
  repaid : Bool
  purpose : String
deriving Repr

def emptyCircle : Circle :=
  { id := 0, name := "", members := [], totalStake := 0, createdAt := 0, isActive := false }

def emptyMember : MemberData :=
  { circleId := 0, individualScore := 0, trustBond := 0, totalBorrowed := 0,
    totalRepaid := 0, loansCompleted := 0, isActive := false, hasActiveLoan := false }

def emptyLoan : Loan :=
  { id := 0, borrower := 0, amount := 0, interestAmount := 0, totalRepayment := 0,
    requestTime := 0, approvalTime := 0, disbursementTime := 0, dueDate := 0,
    repaymentTime := 0, approved := false, disbursed := false, repaid := false, purpose := "" }

structure State where
  admin : Nat
  circleCount : Nat
  loanCount : Nat
  isDemoMode : Bool
  demoLoanDuration : Nat
  circles : Nat → Circle
  members : Nat → MemberData
  loans : Nat → Loan
  userLoans : Nat → List Nat
  circleExists : Nat → Bool
  balance : Nat

def initialState (deployer : Nat) : State :=
  { admin := deployer, circleCount := 0, loanCount := 0, isDemoMode := false,
    demoLoanDuration := 7 * 60,
    circles := fun _ => emptyCircle, members := fun _ => emptyMember,
    loans := fun _ => emptyLoan, userLoans := fun _ => [],
    circleExists := fun _ => false, balance := 0 }

-- ============ SCORE CALCULATIONS ============

-- Source: `member.individualScore > 0 ? member.individualScore : STARTING_SCORE`.
def effScore (n : Nat) : Nat := if 0 < n then n else STARTING_SCORE

def getCircleAverageScore (s : State) (cid : Nat) : Nat :=
  let c := s.circles cid
  if c.members.length = 0 then STARTING_SCORE
  else (c.members.map (fun a => effScore (s.members a).individualScore)).sum / c.members.length

def getTrustScore (s : State) (u : Nat) : Nat :=
  let m := s.members u
  let ind := effScore m.individualScore
  if m.circleId = 0 then ind
  else if (s.circles m.circleId).isActive = false then ind
  else (ind * INDIVIDUAL_WEIGHT + getCircleAverageScore s m.circleId * CIRCLE_WEIGHT) / 100

def getMaxLoanAmount (s : State) (u : Nat) : Nat :=
  let score := getTrustScore s u
  if score < 60 then 10 * etherUnit
  else if score < 70 then 20 * etherUnit
  else if score < 80 then 50 * etherUnit
  else if score < 90 then 100 * etherUnit
  else 200 * etherUnit

def getInterestRate (s : State) (u : Nat) : Nat :=
  let score := getTrustScore s u
  if score < 60 then 6
  else if score < 70 then 4
  else if score < 80 then 4
  else if score < 90 then 2
  else 2

-- ============ CIRCLE MANAGEMENT ============

def createCircle (s : State) (sender value : Nat) (name : String) (now : Nat) : Option State :=
  if MIN_STAKE ≤ value ∧ (s.members sender).circleId = 0 ∧ name ≠ "" then
    some { s with
      circleCount := s.circleCount + 1,
      circles := fun i => if i = s.circleCount + 1 then
          { id := s.circleCount + 1, name := name, members := [sender], totalStake := value,
            createdAt := now, isActive := false }
        else s.circles i,
      members := fun a => if a = sender then
          { circleId := s.circleCount + 1, individualScore := STARTING_SCORE, trustBond := value,
            totalBorrowed := 0, totalRepaid := 0, loansCompleted := 0,
            isActive := true, hasActiveLoan := false }
        else s.members a,
      circleExists := fun i => if i = s.circleCount + 1 then true else s.circleExists i,
      balance := s.balance + value }
  else none

def joinCircle (s : State) (sender cid value : Nat) : Option State :=
  if MIN_STAKE ≤ value ∧ (s.members sender).circleId = 0 ∧ s.circleExists cid = true ∧
     (s.circles cid).members.length < 10 then
    some { s with
      circles := fun i => if i = cid then
          { (s.circles cid) with
            members := (s.circles cid).members ++ [sender],
            totalStake := (s.circles cid).totalStake + value,
            isActive :=
              if MIN_CIRCLE_MEMBERS ≤ ((s.circles cid).members ++ [sender]).length ∧
                 (s.circles cid).isActive = false then true
              else (s.circles cid).isActive }
        else s.circles i,
      members := fun a => if a = sender then
          { circleId := cid, individualScore := STARTING_SCORE, trustBond := value,
            totalBorrowed := 0, totalRepaid := 0, loansCompleted := 0,
            isActive := true, hasActiveLoan := false }
        else s.members a,
      balance := s.balance + value }
  else none

-- ============ LOAN MANAGEMENT ============

def requestLoan (s : State) (sender amount : Nat) (purpose : String) (now : Nat) : Option State :=
  if (s.members sender).isActive = true ∧ (s.members sender).circleId ≠ 0 ∧
     (s.circles (s.members sender).circleId).isActive = true ∧
     (s.members sender).hasActiveLoan = false ∧ 0 < amount ∧ purpose ≠ "" ∧
     amount ≤ getMaxLoanAmount s sender then
    some { s with
      loanCount := s.loanCount + 1,
      loans := fun i => if i = s.loanCount + 1 then
          { id := s.loanCount + 1, borrower := sender, amount := amount,
            interestAmount := amount * getInterestRate s sender / 100,
            totalRepayment := amount + amount * getInterestRate s sender / 100,
            requestTime := now, approvalTime := 0, disbursementTime := 0, dueDate := 0,
            repaymentTime := 0, approved := false, disbursed := false, repaid := false,
            purpose := purpose }
        else s.loans i,
      userLoans := fun a => if a = sender then s.userLoans sender ++ [s.loanCount + 1]
        else s.userLoans a,
      members := fun a => if a = sender then { (s.members sender) with hasActiveLoan := true }
        else s.members a }
  else none

def loanDuration (s : State) : Nat := if s.isDemoMode then s.demoLoanDuration else LOAN_DURATION

def approveLoan (s : State) (caller lid now : Nat) : Option State :=
  if caller = s.admin ∧ (s.loans lid).borrower ≠ 0 ∧ (s.loans lid).approved = false ∧
     (s.loans lid).disbursed = false ∧ (s.loans lid).amount ≤ s.balance then
    some { s with
      loans := fun i => if i = lid then
          { (s.loans lid) with
            approved := true
            approvalTime := now
            disbursed := true
            disbursementTime := now
            dueDate := now + loanDuration s }
        else s.loans i,
      members := fun a => if a = (s.loans lid).borrower then
          { (s.members (s.loans lid).borrower) with
            totalBorrowed := (s.members (s.loans lid).borrower).totalBorrowed + (s.loans lid).amount }
        else s.members a,
      balance := s.balance - (s.loans lid).amount }
  else none

def disburseLoan (s : State) (caller lid value now : Nat) : Option State :=
  if caller = s.admin ∧ (s.loans lid).approved = true ∧ (s.loans lid).disbursed = false ∧
     value = (s.loans lid).amount then
    some { s with
      loans := fun i => if i = lid then
          { (s.loans lid) with
            disbursed := true
            disbursementTime := now
            dueDate := now + loanDuration s }
        else s.loans i,
      members := fun a => if a = (s.loans lid).borrower then
          { (s.members (s.loans lid).borrower) with
            totalBorrowed := (s.members (s.loans lid).borrower).totalBorrowed + (s.loans lid).amount }
        else s.members a,
      balance := s.balance + value - (s.loans lid).amount }
  else none

def calculateCreditBonus (dueDate repaymentTime : Nat) : Nat :=
  if repaymentTime < dueDate then EARLY_BONUS
  else if repaymentTime ≤ dueDate + 3 * oneDay then ON_TIME_BONUS
  else if repaymentTime ≤ dueDate + 7 * oneDay then LATE_PENALTY
  else 0

-- Source `_updateScoresOnRepayment`: only a strictly positive bonus is applied,
-- and the sum is capped at MAX_SCORE.
def applyCreditBonus (score bonus : Nat) : Nat :=
  if 0 < bonus then (if MAX_SCORE < score + bonus then MAX_SCORE else score + bonus) else score

def repayLoan (s : State) (sender lid value now : Nat) : Option State :=
  if (s.loans lid).borrower = sender ∧ (s.loans lid).disbursed = true ∧
     (s.loans lid).repaid = false ∧ value = (s.loans lid).totalRepayment then
    some { s with
      loans := fun i => if i = lid then
          { (s.loans lid) with repaid := true, repaymentTime := now }
        else s.loans i,
      members := fun a => if a = sender then
          { (s.members sender) with
            totalRepaid := (s.members sender).totalRepaid + (s.loans lid).totalRepayment
            loansCompleted := (s.members sender).loansCompleted + 1
            hasActiveLoan := false
            individualScore := applyCreditBonus (s.members sender).individualScore
              (calculateCreditBonus (s.loans lid).dueDate now) }
        else s.members a,
      balance := s.balance + value }
  else none

-- Source: `if (member.individualScore >= CIRCLE_DEFAULT_PENALTY) ... else 0`.
def circlePenalty (sc : Nat) : Nat :=
  if CIRCLE_DEFAULT_PENALTY ≤ sc then sc - CIRCLE_DEFAULT_PENALTY else 0

-- Source: `if (member.individualScore >= DEFAULT_PENALTY) ... else 0`.
def slashScore (sc : Nat) : Nat :=
  if DEFAULT_PENALTY ≤ sc then sc - DEFAULT_PENALTY else 0

-- One iteration of the `_penalizeCircle` loop body.
def cascadeStep (defaulter : Nat) (st : State) (a : Nat) : State :=
  if a = defaulter then st
  else { st with members := fun x => if x = a then
      { (st.members a) with individualScore := circlePenalty (st.members a).individualScore }
    else st.members x }

def penalizeCircle (st : State) (cid defaulter : Nat) : State :=
  (st.circles cid).members.foldl (cascadeStep defaulter) st

-- State after the defaulter's own slash and freeze, before the circle cascade.
def slashedState (s : State) (b : Nat) : State :=
  { s with members := fun x => if x = b then
      { (s.members b) with
        individualScore := slashScore (s.members b).individualScore
        isActive := false }
    else s.members x }

def penalizeDefault (s : State) (caller lid now : Nat) : Option State :=
  if caller = s.admin ∧ (s.loans lid).disbursed = true ∧ (s.loans lid).repaid = false ∧
     (s.loans lid).dueDate + 14 * oneDay < now then
    some (
      if 0 < (s.members (s.loans lid).borrower).circleId then
        penalizeCircle (slashedState s (s.loans lid).borrower)
          (s.members (s.loans lid).borrower).circleId (s.loans lid).borrower
      else slashedState s (s.loans lid).borrower)
  else none

-- ============ ADMIN FUNCTIONS ============

def depositLiquidity (s : State) (caller value : Nat) : Option State :=
  if caller = s.admin ∧ 0 < value then some { s with balance := s.balance + value } else none

def withdraw (s : State) (caller amount : Nat) : Option State :=
  if caller = s.admin ∧ 0 < amount ∧ amount ≤ s.balance then
    some { s with balance := s.balance - amount }
  else none

def setDemoMode (s : State) (caller : Nat) (enabled : Bool) : Option State :=
  if caller = s.admin then some { s with isDemoMode := enabled } else none

def setDemoLoanDuration (s : State) (caller duration : Nat) : Option State :=
  if caller = s.admin then some { s with demoLoanDuration := duration } else none

def unfreezeAccount (s : State) (caller user : Nat) : Option State :=
  if caller = s.admin then
    some { s with members := fun x => if x = user then
        { (s.members user) with isActive := true }
      else s.members x }
  else none

def transferAdmin (s : State) (caller newAdmin : Nat) : Option State :=
  if caller = s.admin ∧ newAdmin ≠ 0 then some { s with admin := newAdmin } else none

-- Plain value transfers into the contract (the `receive` fallback).
def receiveEther (s : State) (value : Nat) : State := { s with balance := s.balance + value }

-- ============ TRANSITION SYSTEM ============

-- A single externally-triggered contract call.  `msg.sender` can never be
-- the zero address on a real chain, hence the `≠ 0` side conditions.
inductive Step : State → State → Prop where
  | ofCreateCircle (s s2 : State) (sender value : Nat) (name : String) (now : Nat) :
      sender ≠ 0 → createCircle s sender value name now = some s2 → Step s s2
  | ofJoinCircle (s s2 : State) (sender cid value : Nat) :
      sender ≠ 0 → joinCircle s sender cid value = some s2 → Step s s2
  | ofRequestLoan (s s2 : State) (sender amount : Nat) (purpose : String) (now : Nat) :
      sender ≠ 0 → requestLoan s sender amount purpose now = some s2 → Step s s2
  | ofApproveLoan (s s2 : State) (caller lid now : Nat) :
      caller ≠ 0 → approveLoan s caller lid now = some s2 → Step s s2
  | ofDisburseLoan (s s2 : State) (caller lid value now : Nat) :
      caller ≠ 0 → disburseLoan s caller lid value now = some s2 → Step s s2
  | ofRepayLoan (s s2 : State) (sender lid value now : Nat) :
      sender ≠ 0 → repayLoan s sender lid value now = some s2 → Step s s2
  | ofPenalizeDefault (s s2 : State) (caller lid now : Nat) :
      caller ≠ 0 → penalizeDefault s caller lid now = some s2 → Step s s2
  | ofDepositLiquidity (s s2 : State) (caller value : Nat) :
      caller ≠ 0 → depositLiquidity s caller value = some s2 → Step s s2
  | ofWithdraw (s s2 : State) (caller amount : Nat) :
      caller ≠ 0 → withdraw s caller amount = some s2 → Step s s2
  | ofSetDemoMode (s s2 : State) (caller : Nat) (enabled : Bool) :
      caller ≠ 0 → setDemoMode s caller enabled = some s2 → Step s s2
  | ofSetDemoLoanDuration (s s2 : State) (caller duration : Nat) :
      caller ≠ 0 → setDemoLoanDuration s caller duration = some s2 → Step s s2
  | ofUnfreezeAccount (s s2 : State) (caller user : Nat) :
      caller ≠ 0 → unfreezeAccount s caller user = some s2 → Step s s2
  | ofTransferAdmin (s s2 : State) (caller newAdmin : Nat) :
      caller ≠ 0 → transferAdmin s caller newAdmin = some s2 → Step s s2
  | ofReceive (s : State) (value : Nat) : Step s (receiveEther s value)

inductive Reachable : State → Prop where
  | init (deployer : Nat) : deployer ≠ 0 → Reachable (initialState deployer)
  | next {s s2 : State} : Reachable s → Step s s2 → Reachable s2

-- ============ BASIC HELPERS ============

theorem guardSome {α : Type} {p : Prop} [Decidable p] {a s2 : α}
    (h : (if p then some a else none) = some s2) : p ∧ s2 = a := by
  by_cases hp : p
  · rw [if_pos hp] at h
    exact ⟨hp, (Option.some.inj h).symm⟩
  · rw [if_neg hp] at h
    cases h

theorem guardIsSome {α : Type} {p : Prop} [Decidable p] {a : α} :
    (if p then some a else none).isSome = true ↔ p := by
  by_cases hp : p <;> simp [hp]

-- ============ CONCRETE TRACE ============

-- A concrete execution used by several witnesses: deployer 1 is admin,
-- member 2 creates a circle, members 3 and 4 join (activating it),
-- member 2 borrows 1 ether which the admin approves, member 3 then
-- requests 1 ether.
def tr0 : State := initialState 1
def tr1 : State := (createCircle tr0 2 MIN_STAKE "alpha" 0).getD tr0
def tr2 : State := (joinCircle tr1 3 1 MIN_STAKE).getD tr1
def tr3 : State := (joinCircle tr2 4 1 MIN_STAKE).getD tr2
def tr4 : State := (requestLoan tr3 2 etherUnit "rent" 100).getD tr3
def tr5 : State := (approveLoan tr4 1 1 200).getD tr4
def tr6 : State := (requestLoan tr5 3 etherUnit "food" 300).getD tr5


-- ============ CASCADE LEMMAS ============

theorem cascadeStep_frame (d : Nat) (st : State) (x : Nat) :
    (cascadeStep d st x).admin = st.admin ∧
    (cascadeStep d st x).circleCount = st.circleCount ∧
    (cascadeStep d st x).loanCount = st.loanCount ∧
    (cascadeStep d st x).isDemoMode = st.isDemoMode ∧
    (cascadeStep d st x).demoLoanDuration = st.demoLoanDuration ∧
    (cascadeStep d st x).circles = st.circles ∧
    (cascadeStep d st x).loans = st.loans ∧
    (cascadeStep d st x).userLoans = st.userLoans ∧
    (cascadeStep d st x).circleExists = st.circleExists ∧
    (cascadeStep d st x).balance = st.balance := by
  unfold cascadeStep
  split <;> exact ⟨rfl, rfl, rfl, rfl, rfl, rfl, rfl, rfl, rfl, rfl⟩

theorem cascadeFold_frame (l : List Nat) (d : Nat) (st : State) :
    (l.foldl (cascadeStep d) st).admin = st.admin ∧
    (l.foldl (cascadeStep d) st).circleCount = st.circleCount ∧
    (l.foldl (cascadeStep d) st).loanCount = st.loanCount ∧
    (l.foldl (cascadeStep d) st).isDemoMode = st.isDemoMode ∧
    (l.foldl (cascadeStep d) st).demoLoanDuration = st.demoLoanDuration ∧
    (l.foldl (cascadeStep d) st).circles = st.circles ∧
    (l.foldl (cascadeStep d) st).loans = st.loans ∧
    (l.foldl (cascadeStep d) st).userLoans = st.userLoans ∧
    (l.foldl (cascadeStep d) st).circleExists = st.circleExists ∧
    (l.foldl (cascadeStep d) st).balance = st.balance := by
  induction l generalizing st with
  | nil => exact ⟨rfl, rfl, rfl, rfl, rfl, rfl, rfl, rfl, rfl, rfl⟩
  | cons x xs ih =>
    have h1 := cascadeStep_frame d st x
    have h2 := ih (cascadeStep d st x)
    simp only [List.foldl_cons]
    obtain ⟨a1, a2, a3, a4, a5, a6, a7, a8, a9, a10⟩ := h1
    obtain ⟨b1, b2, b3, b4, b5, b6, b7, b8, b9, b10⟩ := h2
    exact ⟨b1.trans a1, b2.trans a2, b3.trans a3, b4.trans a4, b5.trans a5,
      b6.trans a6, b7.trans a7, b8.trans a8, b9.trans a9, b10.trans a10⟩

theorem cascadeStep_members_other (d : Nat) (st : State) (x a : Nat) (hax : a ≠ x) :
    (cascadeStep d st x).members a = st.members a := by
  unfold cascadeStep
  split
  · rfl
  · simp [hax]

theorem cascadeStep_members_defaulter (d : Nat) (st : State) (x : Nat) :
    (cascadeStep d st x).members d = st.members d := by
  unfold cascadeStep
  split
  · rfl
  · rename_i hxd
    simp only []
    rw [if_neg]
    intro hdx
    exact hxd hdx.symm

theorem cascadeFold_members_not_mem (l : List Nat) (d : Nat) (st : State) (a : Nat)
    (ha : a ∉ l) : (l.foldl (cascadeStep d) st).members a = st.members a := by
  induction l generalizing st with
  | nil => rfl
  | cons x xs ih =>
    simp only [List.foldl_cons]
    have hax : a ≠ x := by
      intro h
      exact ha (h ▸ List.mem_cons_self x xs)
    rw [ih (cascadeStep d st x) (fun h => ha (List.mem_cons_of_mem x h))]
    exact cascadeStep_members_other d st x a hax

theorem cascadeFold_members_defaulter (l : List Nat) (d : Nat) (st : State) :
    (l.foldl (cascadeStep d) st).members d = st.members d := by
  induction l generalizing st with
  | nil => rfl
  | cons x xs ih =>
    simp only [List.foldl_cons]
    rw [ih (cascadeStep d st x)]
    exact cascadeStep_members_defaulter d st x

theorem cascadeFold_members_mem (l : List Nat) (d : Nat) (st : State) (a : Nat)
    (hnd : l.Nodup) (ha : a ∈ l) (had : a ≠ d) :
    (l.foldl (cascadeStep d) st).members a =
      { (st.members a) with individualScore := circlePenalty (st.members a).individualScore } := by
  induction l generalizing st with
  | nil => cases ha
  | cons x xs ih =>
    simp only [List.foldl_cons]
    rcases List.mem_cons.mp ha with hax | haxs
    · subst hax
      have hnot : a ∉ xs := (List.nodup_cons.mp hnd).1
      rw [cascadeFold_members_not_mem xs d _ a hnot]
      unfold cascadeStep
      rw [if_neg had]
      simp
    · have hstep : (cascadeStep d st x).members a = st.members a := by
        by_cases hax : a = x
        · subst hax
          exact absurd haxs (List.nodup_cons.mp hnd).1
        · exact cascadeStep_members_other d st x a hax
      rw [ih (cascadeStep d st x) (List.nodup_cons.mp hnd).2 haxs, hstep]

theorem cascadeStep_score_le (d : Nat) (st : State) (x : Nat)
    (h : ∀ a, (st.members a).individualScore ≤ MAX_SCORE) :
    ∀ a, ((cascadeStep d st x).members a).individualScore ≤ MAX_SCORE := by
  intro a
  unfold cascadeStep
  split
  · exact h a
  · simp only []
    split
    · simp only [circlePenalty]
      have := h x
      split <;> omega
    · exact h a

theorem cascadeFold_score_le (l : List Nat) (d : Nat) (st : State)
    (h : ∀ a, (st.members a).individualScore ≤ MAX_SCORE) :
    ∀ a, ((l.foldl (cascadeStep d) st).members a).individualScore ≤ MAX_SCORE := by
  induction l generalizing st with
  | nil => exact h
  | cons x xs ih =>
    simp only [List.foldl_cons]
    exact ih (cascadeStep d st x) (cascadeStep_score_le d st x h)

-- ============ INDUCTIVE INVARIANT ============

-- The conjunction of state invariants needed by the claims: every
-- individual score stays within MAX_SCORE, every approved loan is already
-- disbursed (approveLoan is the only approver, and it disburses in the
-- same call), a circle is active exactly when it has reached the member
-- threshold, circle ids above circleCount are untouched storage, and
-- circleExists only marks allocated ids.
def Inv (s : State) : Prop :=
  (∀ a, (s.members a).individualScore ≤ MAX_SCORE) ∧
  (∀ lid, (s.loans lid).approved = true → (s.loans lid).disbursed = true) ∧
  (∀ cid, (s.circles cid).isActive = true ↔ MIN_CIRCLE_MEMBERS ≤ (s.circles cid).members.length) ∧
  (∀ cid, s.circleCount < cid → (s.circles cid).isActive = false) ∧
  (∀ cid, s.circleExists cid = true → cid ≤ s.circleCount)

theorem inv_initial (deployer : Nat) : Inv (initialState deployer) := by
  refine ⟨?_, ?_, ?_, ?_, ?_⟩ <;> intro i <;> simp [initialState, emptyMember, emptyLoan,
    emptyCircle, MIN_CIRCLE_MEMBERS, MAX_SCORE]

theorem inv_depositLiquidity {s s2 : State} {caller value : Nat}
    (h : depositLiquidity s caller value = some s2) (hI : Inv s) : Inv s2 := by
  obtain ⟨hg, he⟩ := guardSome h
  subst he
  exact hI

theorem inv_withdraw {s s2 : State} {caller amount : Nat}
    (h : withdraw s caller amount = some s2) (hI : Inv s) : Inv s2 := by
  obtain ⟨hg, he⟩ := guardSome h
  subst he
  exact hI

theorem inv_setDemoMode {s s2 : State} {caller : Nat} {enabled : Bool}
    (h : setDemoMode s caller enabled = some s2) (hI : Inv s) : Inv s2 := by
  obtain ⟨hg, he⟩ := guardSome h
  subst he
  exact hI

theorem inv_setDemoLoanDuration {s s2 : State} {caller duration : Nat}
    (h : setDemoLoanDuration s caller duration = some s2) (hI : Inv s) : Inv s2 := by
  obtain ⟨hg, he⟩ := guardSome h
  subst he
  exact hI

theorem inv_transferAdmin {s s2 : State} {caller newAdmin : Nat}
    (h : transferAdmin s caller newAdmin = some s2) (hI : Inv s) : Inv s2 := by
  obtain ⟨hg, he⟩ := guardSome h
  subst he
  exact hI

theorem inv_receiveEther {s : State} {value : Nat} (hI : Inv s) : Inv (receiveEther s value) := hI

theorem inv_unfreezeAccount {s s2 : State} {caller user : Nat}
    (h : unfreezeAccount s caller user = some s2) (hI : Inv s) : Inv s2 := by
  obtain ⟨hg, he⟩ := guardSome h
  subst he
  obtain ⟨h1, h2, h3, h4, h5⟩ := hI
  refine ⟨?_, h2, h3, h4, h5⟩
  intro a
  by_cases ha : a = user <;> simp [unfreezeAccount, ha, h1 a, h1 user]


theorem applyCreditBonus_le (sc b : Nat) (h : sc ≤ MAX_SCORE) :
    applyCreditBonus sc b ≤ MAX_SCORE := by
  unfold applyCreditBonus
  split_ifs <;> omega

theorem slashScore_le (sc : Nat) (h : sc ≤ MAX_SCORE) : slashScore sc ≤ MAX_SCORE := by
  unfold slashScore
  split <;> omega

-- The activation rule of joinCircle, seen purely on the active flag and the
-- previous member count: given the threshold invariant, the new flag is set
-- exactly when the new count reaches the threshold.
theorem activation_iff (old : Bool) (n : Nat) (hiff : old = true ↔ MIN_CIRCLE_MEMBERS ≤ n) :
    ((if MIN_CIRCLE_MEMBERS ≤ n + 1 ∧ old = false then true else old) = true ↔
      MIN_CIRCLE_MEMBERS ≤ n + 1) := by
  cases old
  · by_cases hc : MIN_CIRCLE_MEMBERS ≤ n + 1
    · rw [if_pos ⟨hc, rfl⟩]
      exact ⟨fun _ => hc, fun _ => rfl⟩
    · rw [if_neg (fun hand => hc hand.1)]
      exact ⟨fun hff => Bool.noConfusion hff, fun hle => absurd hle hc⟩
  · have hn := hiff.mp rfl
    rw [if_neg (fun hand => Bool.noConfusion hand.2)]
    exact ⟨fun _ => Nat.le_succ_of_le hn, fun _ => rfl⟩

theorem inv_createCircle {s s2 : State} {sender value : Nat} {name : String} {now : Nat}
    (h : createCircle s sender value name now = some s2) (hI : Inv s) : Inv s2 := by
  obtain ⟨hg, he⟩ := guardSome h
  subst he
  obtain ⟨h1, h2, h3, h4, h5⟩ := hI
  refine ⟨?_, h2, ?_, ?_, ?_⟩
  · intro a
    dsimp only
    by_cases ha : a = sender
    · rw [if_pos ha]
      exact (by decide : STARTING_SCORE ≤ MAX_SCORE)
    · rw [if_neg ha]
      exact h1 a
  · intro cid
    dsimp only
    by_cases hc : cid = s.circleCount + 1
    · rw [if_pos hc]
      simp [MIN_CIRCLE_MEMBERS]
    · rw [if_neg hc]
      exact h3 cid
  · intro cid hcid
    dsimp only at hcid ⊢
    have hne : cid ≠ s.circleCount + 1 := by omega
    rw [if_neg hne]
    exact h4 cid (by omega)
  · intro cid
    dsimp only
    by_cases hc : cid = s.circleCount + 1
    · rw [if_pos hc]
      intro _
      omega
    · rw [if_neg hc]
      intro hex
      exact Nat.le_trans (h5 cid hex) (Nat.le_succ _)

theorem inv_joinCircle {s s2 : State} {sender cid value : Nat}
    (h : joinCircle s sender cid value = some s2) (hI : Inv s) : Inv s2 := by
  obtain ⟨hg, he⟩ := guardSome h
  subst he
  obtain ⟨hstake, hnoc, hex, hlen⟩ := hg
  obtain ⟨h1, h2, h3, h4, h5⟩ := hI
  refine ⟨?_, h2, ?_, ?_, h5⟩
  · intro a
    dsimp only
    by_cases ha : a = sender
    · rw [if_pos ha]
      exact (by decide : STARTING_SCORE ≤ MAX_SCORE)
    · rw [if_neg ha]
      exact h1 a
  · intro c
    dsimp only
    by_cases hc : c = cid
    · subst hc
      rw [if_pos rfl]
      dsimp only
      simp only [List.length_append, List.length_singleton]
      exact activation_iff _ _ (h3 c)
    · rw [if_neg hc]
      exact h3 c
  · intro c hgt
    dsimp only at hgt ⊢
    have hne : c ≠ cid := by
      intro heq
      subst heq
      exact absurd (h5 c hex) (by omega)
    rw [if_neg hne]
    exact h4 c hgt

theorem inv_requestLoan {s s2 : State} {sender amount : Nat} {purpose : String} {now : Nat}
    (h : requestLoan s sender amount purpose now = some s2) (hI : Inv s) : Inv s2 := by
  obtain ⟨hg, he⟩ := guardSome h
  subst he
  obtain ⟨h1, h2, h3, h4, h5⟩ := hI
  refine ⟨?_, ?_, h3, h4, h5⟩
  · intro a
    dsimp only
    by_cases ha : a = sender
    · rw [if_pos ha]
      exact h1 sender
    · rw [if_neg ha]
      exact h1 a
  · intro lid
    dsimp only
    by_cases hl : lid = s.loanCount + 1
    · rw [if_pos hl]
      intro hfalse
      exact Bool.noConfusion hfalse
    · rw [if_neg hl]
      exact h2 lid

theorem inv_approveLoan {s s2 : State} {caller lid now : Nat}
    (h : approveLoan s caller lid now = some s2) (hI : Inv s) : Inv s2 := by
  obtain ⟨hg, he⟩ := guardSome h
  subst he
  obtain ⟨h1, h2, h3, h4, h5⟩ := hI
  refine ⟨?_, ?_, h3, h4, h5⟩
  · intro a
    dsimp only
    by_cases ha : a = (s.loans lid).borrower
    · rw [if_pos ha]
      exact h1 _
    · rw [if_neg ha]
      exact h1 a
  · intro l
    dsimp only
    by_cases hl : l = lid
    · rw [if_pos hl]
      intro _
      rfl
    · rw [if_neg hl]
      exact h2 l

theorem inv_disburseLoan {s s2 : State} {caller lid value now : Nat}
    (h : disburseLoan s caller lid value now = some s2) (hI : Inv s) : Inv s2 := by
  obtain ⟨hg, he⟩ := guardSome h
  obtain ⟨hc, happ, hdis, hval⟩ := hg
  exact absurd (hI.2.1 lid happ) (by simp [hdis])

theorem inv_repayLoan {s s2 : State} {sender lid value now : Nat}
    (h : repayLoan s sender lid value now = some s2) (hI : Inv s) : Inv s2 := by
  obtain ⟨hg, he⟩ := guardSome h
  subst he
  obtain ⟨h1, h2, h3, h4, h5⟩ := hI
  refine ⟨?_, ?_, h3, h4, h5⟩
  · intro a
    dsimp only
    by_cases ha : a = sender
    · rw [if_pos ha]
      exact applyCreditBonus_le _ _ (h1 sender)
    · rw [if_neg ha]
      exact h1 a
  · intro l
    dsimp only
    by_cases hl : l = lid
    · rw [if_pos hl]
      intro happ
      exact h2 lid happ
    · rw [if_neg hl]
      exact h2 l

theorem inv_penalizeDefault {s s2 : State} {caller lid now : Nat}
    (h : penalizeDefault s caller lid now = some s2) (hI : Inv s) : Inv s2 := by
  obtain ⟨hg, he⟩ := guardSome h
  subst he
  obtain ⟨h1, h2, h3, h4, h5⟩ := hI
  have hslash : ∀ x, ((slashedState s (s.loans lid).borrower).members x).individualScore ≤
      MAX_SCORE := by
    intro x
    unfold slashedState
    dsimp only
    by_cases hx : x = (s.loans lid).borrower
    · rw [if_pos hx]
      exact slashScore_le _ (h1 _)
    · rw [if_neg hx]
      exact h1 x
  by_cases hcid : 0 < (s.members (s.loans lid).borrower).circleId
  · rw [if_pos hcid]
    unfold penalizeCircle
    obtain ⟨f1, f2, f3, f4, f5, f6, f7, f8, f9, f10⟩ :=
      cascadeFold_frame ((slashedState s (s.loans lid).borrower).circles
        (s.members (s.loans lid).borrower).circleId).members (s.loans lid).borrower
        (slashedState s (s.loans lid).borrower)
    refine ⟨?_, ?_, ?_, ?_, ?_⟩
    · exact cascadeFold_score_le _ _ _ hslash
    · intro l
      rw [f7]
      exact h2 l
    · intro c
      rw [f6]
      exact h3 c
    · intro c hgt
      rw [f2] at hgt
      rw [f6]
      exact h4 c hgt
    · intro c hex
      rw [f9] at hex
      rw [f2]
      exact h5 c hex
  · rw [if_neg hcid]
    exact ⟨hslash, h2, h3, h4, h5⟩

theorem inv_step {s s2 : State} (h : Step s s2) (hI : Inv s) : Inv s2 := by
  cases h with
  | ofCreateCircle s2 sender value name now hs hop => exact inv_createCircle hop hI
  | ofJoinCircle s2 sender cid value hs hop => exact inv_joinCircle hop hI
  | ofRequestLoan s2 sender amount purpose now hs hop => exact inv_requestLoan hop hI
  | ofApproveLoan s2 caller lid now hs hop => exact inv_approveLoan hop hI
  | ofDisburseLoan s2 caller lid value now hs hop => exact inv_disburseLoan hop hI
  | ofRepayLoan s2 sender lid value now hs hop => exact inv_repayLoan hop hI
  | ofPenalizeDefault s2 caller lid now hs hop => exact inv_penalizeDefault hop hI
  | ofDepositLiquidity s2 caller value hs hop => exact inv_depositLiquidity hop hI
  | ofWithdraw s2 caller amount hs hop => exact inv_withdraw hop hI
  | ofSetDemoMode s2 caller enabled hs hop => exact inv_setDemoMode hop hI
  | ofSetDemoLoanDuration s2 caller duration hs hop => exact inv_setDemoLoanDuration hop hI
  | ofUnfreezeAccount s2 caller user hs hop => exact inv_unfreezeAccount hop hI
  | ofTransferAdmin s2 caller newAdmin hs hop => exact inv_transferAdmin hop hI
  | ofReceive value => exact inv_receiveEther hI

theorem inv_reachable {s : State} (h : Reachable s) : Inv s := by
  induction h with
  | init deployer hd => exact inv_initial deployer
  | next hr hs ih => exact inv_step hs ih

-- ============ SMALL ARITHMETIC FACTS ============

theorem slashScore_eq (sc : Nat) : slashScore sc = sc - DEFAULT_PENALTY := by
  unfold slashScore
  split <;> omega

theorem circlePenalty_eq (sc : Nat) : circlePenalty sc = sc - CIRCLE_DEFAULT_PENALTY := by
  unfold circlePenalty
  split <;> omega

-- ============ CLAIM C1 ============

/-- Claim C1 (counterexample): getTrustScore is not the identity on the stored
individual score for a circle-less member whose stored score is 0: the source
replaces a zero score with STARTING_SCORE (50) before any other check, so a
member with no circle and stored score 0 gets trust score 50, not 0. -/
theorem trustScore_zero_not_identity :
    ((initialState 1).members 5).circleId = 0 ∧
    ((initialState 1).members 5).individualScore = 0 ∧
    getTrustScore (initialState 1) 5 = STARTING_SCORE ∧
    getTrustScore (initialState 1) 5 ≠ ((initialState 1).members 5).individualScore := by
  exact ⟨rfl, rfl, rfl, by decide⟩

/-- Claim C1 (amended): when a member has no circle or the member's circle is
not active, getTrustScore returns the stored individualScore if it is positive
and STARTING_SCORE (50) if the stored score is 0. -/
theorem trustScore_outside_active_circle (s : State) (u : Nat)
    (h : (s.members u).circleId = 0 ∨ (s.circles (s.members u).circleId).isActive = false) :
    getTrustScore s u =
      (if 0 < (s.members u).individualScore then (s.members u).individualScore
       else STARTING_SCORE) := by
  unfold getTrustScore effScore
  rcases h with h | h
  · simp [h]
  · by_cases hc : (s.members u).circleId = 0
    · simp [hc]
    · simp [hc, h]

/-- Witness for the amended C1 theorem: member 2 of the one-member (hence
inactive) circle in state tr1 has trust score equal to its stored score 50. -/
theorem trustScore_outside_active_circle_inst :
    (tr1.circles (tr1.members 2).circleId).isActive = false ∧
    getTrustScore tr1 2 =
      (if 0 < (tr1.members 2).individualScore then (tr1.members 2).individualScore
       else STARTING_SCORE) :=
  ⟨by decide, trustScore_outside_active_circle tr1 2 (Or.inr (by decide))⟩

-- ============ CLAIM C2 ============

/-- Claim C2: in every reachable state every member's individualScore lies in
[0, 100]; all score mutations (initialisation to 50, saturating repayment
bonus, floored default and cascade penalties) preserve the bound. -/
theorem individualScore_bounded (s : State) (h : Reachable s) (a : Nat) :
    0 ≤ (s.members a).individualScore ∧ (s.members a).individualScore ≤ 100 := by
  refine ⟨Nat.zero_le _, ?_⟩
  have hb := (inv_reachable h).1 a
  simpa [MAX_SCORE] using hb

/-- Witness for C2 at the initial state and an arbitrary address. -/
theorem individualScore_bounded_inst :
    0 ≤ ((initialState 1).members 7).individualScore ∧
    ((initialState 1).members 7).individualScore ≤ 100 :=
  individualScore_bounded (initialState 1) (Reachable.init 1 (by decide)) 7

-- ============ CLAIM C7 ============

/-- Claim C7: a member whose hasActiveLoan flag is set cannot open a second
loan: requestLoan returns none (a revert), so no member, circle or loan record
and no balance is modified, and a member has at most one active loan. -/
theorem requestLoan_active_loan_rejected (s : State) (sender amount : Nat) (purpose : String)
    (now : Nat) (h : (s.members sender).hasActiveLoan = true) :
    requestLoan s sender amount purpose now = none := by
  unfold requestLoan
  rw [if_neg]
  rintro ⟨-, -, -, hno, -⟩
  rw [h] at hno
  cases hno

/-- Witness for C7: member 2 holds the active loan in tr4, so a second request
by member 2 reverts. -/
theorem requestLoan_active_loan_rejected_inst :
    (tr4.members 2).hasActiveLoan = true ∧ requestLoan tr4 2 5 "x" 0 = none :=
  ⟨by decide, requestLoan_active_loan_rejected tr4 2 5 "x" 0 (by decide)⟩

-- ============ CLAIM C3 ============

-- A state holding an overdue disbursed loan: borrower 2 (score 100) in the
-- active circle 1 with peers 3 (score 90) and 4 (score 15).
def pz0 : State :=
  { admin := 1, circleCount := 1, loanCount := 1, isDemoMode := false, demoLoanDuration := 420,
    circles := fun i => if i = 1 then
        { id := 1, name := "c", members := [2, 3, 4], totalStake := 3 * MIN_STAKE,
          createdAt := 0, isActive := true }
      else emptyCircle,
    members := fun a =>
      if a = 2 then
        { circleId := 1, individualScore := 100, trustBond := MIN_STAKE,
          totalBorrowed := etherUnit, totalRepaid := 0, loansCompleted := 0,
          isActive := true, hasActiveLoan := true }
      else if a = 3 then
        { circleId := 1, individualScore := 90, trustBond := MIN_STAKE, totalBorrowed := 0,
          totalRepaid := 0, loansCompleted := 0, isActive := true, hasActiveLoan := false }
      else if a = 4 then
        { circleId := 1, individualScore := 15, trustBond := MIN_STAKE, totalBorrowed := 0,
          totalRepaid := 0, loansCompleted := 0, isActive := true, hasActiveLoan := false }
      else emptyMember,
    loans := fun i => if i = 1 then
        { id := 1, borrower := 2, amount := etherUnit, interestAmount := 60000000000000000,
          totalRepayment := 1060000000000000000, requestTime := 0, approvalTime := 10,
          disbursementTime := 10, dueDate := 10 + 7 * 86400, repaymentTime := 0,
          approved := true, disbursed := true, repaid := false, purpose := "p" }
      else emptyLoan,
    userLoans := fun a => if a = 2 then [1] else [],
    circleExists := fun i => i == 1,
    balance := MIN_STAKE }

-- A time strictly past dueDate + 14 days.
def pzT : Nat := 10 + 21 * 86400 + 1

def pz1 : State := (penalizeDefault pz0 1 1 pzT).getD pz0
def pz2 : State := (penalizeDefault pz1 1 1 pzT).getD pz1

/-- Claim C3 (code bug): penalizeDefault keeps no applied-penalty marker, so a
second call on the same loan passes all guards again (the loan stays disbursed
and unrepaid) and re-applies every penalty: the borrower drops 100 to 50 to 0
and peer 3 drops 90 to 70 to 50, instead of the second call being rejected
with no state change. -/
theorem penalizeDefault_double_apply :
    penalizeDefault pz0 1 1 pzT = some pz1 ∧
    penalizeDefault pz1 1 1 pzT = some pz2 ∧
    (pz1.members 2).individualScore = 50 ∧
    (pz1.members 2).isActive = false ∧
    (pz1.members 3).individualScore = 70 ∧
    (pz2.members 2).individualScore = 0 ∧
    (pz2.members 3).individualScore = 50 ∧
    (pz2.members 3).individualScore ≠ (pz1.members 3).individualScore := by
  exact ⟨rfl, rfl, by decide, by decide, by decide, by decide, by decide, by decide⟩

-- ============ CLAIM C4 ============

/-- Claim C4 (counterexample): no sequence of core operations ever produces a
loan that is approved but not disbursed, because approveLoan sets both flags in
the same call and nothing else sets approved; the premise of the claimed
second path into Disbursed is unreachable. -/
theorem approved_undisbursed_unreachable :
    ¬ ∃ s lid, Reachable s ∧ (s.loans lid).approved = true ∧
      (s.loans lid).disbursed = false := by
  rintro ⟨s, lid, hr, happ, hdis⟩
  have hd := (inv_reachable hr).2.1 lid happ
  rw [hd] at hdis
  cases hdis

/-- Claim C4 (amended): disburseLoan does implement the second path — on any
state whose loan is approved but not disbursed, an admin call paying exactly
the principal succeeds, marks the loan disbursed and sets its due date — but
no reachable state contains such a loan, since approveLoan disburses
immediately; the alternate entry is dead code. -/
theorem disburseLoan_second_path (s : State) (caller lid value now : Nat)
    (hc : caller = s.admin) (happ : (s.loans lid).approved = true)
    (hdis : (s.loans lid).disbursed = false) (hval : value = (s.loans lid).amount) :
    (disburseLoan s caller lid value now).isSome = true ∧
    (((disburseLoan s caller lid value now).getD s).loans lid).disbursed = true ∧
    (((disburseLoan s caller lid value now).getD s).loans lid).dueDate = now + loanDuration s ∧
    (∀ s3, Reachable s3 → ∀ l, (s3.loans l).approved = true → (s3.loans l).disbursed = true) := by
  have hg : caller = s.admin ∧ (s.loans lid).approved = true ∧ (s.loans lid).disbursed = false ∧
      value = (s.loans lid).amount := ⟨hc, happ, hdis, hval⟩
  unfold disburseLoan
  rw [if_pos hg]
  refine ⟨rfl, ?_, ?_, ?_⟩
  · simp
  · simp
  · intro s3 hr l h
    exact (inv_reachable hr).2.1 l h

-- A handcrafted (unreachable) state holding an approved, undisbursed loan,
-- used to exercise the dead disburseLoan path.
def app0 : State :=
  { initialState 1 with
    loanCount := 1
    loans := fun i => if i = 1 then
        { id := 1, borrower := 2, amount := etherUnit, interestAmount := 0,
          totalRepayment := etherUnit, requestTime := 0, approvalTime := 5,
          disbursementTime := 0, dueDate := 0, repaymentTime := 0,
          approved := true, disbursed := false, repaid := false, purpose := "p" }
      else emptyLoan }

/-- Witness for the amended C4 theorem at the handcrafted state app0. -/
theorem disburseLoan_second_path_inst :
    (app0.loans 1).approved = true ∧ (app0.loans 1).disbursed = false ∧
    (disburseLoan app0 1 1 etherUnit 99).isSome = true ∧
    (((disburseLoan app0 1 1 etherUnit 99).getD app0).loans 1).disbursed = true ∧
    (((disburseLoan app0 1 1 etherUnit 99).getD app0).loans 1).dueDate = 99 + 7 * 86400 := by
  have h := disburseLoan_second_path app0 1 1 etherUnit 99 rfl (by decide) (by decide) (by decide)
  exact ⟨by decide, by decide, h.1, h.2.1, h.2.2.1.trans (by decide)⟩

-- ============ CLAIM C5 ============

/-- Claim C5: repaying a disbursed, unrepaid loan with the exact amount
succeeds, and the borrower's individualScore moves by the timing tier — +15
strictly before the due date, +10 up to 3 days late, +5 more than 3 and at
most 7 days late, +0 beyond — each addition saturating at 100. -/
theorem repay_bonus_tiers (s : State) (sender lid value now : Nat)
    (hb : (s.loans lid).borrower = sender) (hd : (s.loans lid).disbursed = true)
    (hr : (s.loans lid).repaid = false) (hv : value = (s.loans lid).totalRepayment) :
    (repayLoan s sender lid value now).isSome = true ∧
    (now < (s.loans lid).dueDate →
      (((repayLoan s sender lid value now).getD s).members sender).individualScore =
        min ((s.members sender).individualScore + 15) 100) ∧
    ((s.loans lid).dueDate ≤ now → now ≤ (s.loans lid).dueDate + 3 * oneDay →
      (((repayLoan s sender lid value now).getD s).members sender).individualScore =
        min ((s.members sender).individualScore + 10) 100) ∧
    ((s.loans lid).dueDate + 3 * oneDay < now → now ≤ (s.loans lid).dueDate + 7 * oneDay →
      (((repayLoan s sender lid value now).getD s).members sender).individualScore =
        min ((s.members sender).individualScore + 5) 100) ∧
    ((s.loans lid).dueDate + 7 * oneDay < now →
      (((repayLoan s sender lid value now).getD s).members sender).individualScore =
        (s.members sender).individualScore) := by
  have hg : (s.loans lid).borrower = sender ∧ (s.loans lid).disbursed = true ∧
      (s.loans lid).repaid = false ∧ value = (s.loans lid).totalRepayment := ⟨hb, hd, hr, hv⟩
  unfold repayLoan
  rw [if_pos hg]
  refine ⟨rfl, ?_, ?_, ?_, ?_⟩
  · intro h1
    simp only [Option.getD_some, ite_true]
    unfold calculateCreditBonus applyCreditBonus
    rw [if_pos h1]
    simp only [EARLY_BONUS, MAX_SCORE]
    split_ifs <;> omega
  · intro h1 h2
    simp only [Option.getD_some, ite_true]
    unfold calculateCreditBonus applyCreditBonus
    rw [if_neg (Nat.not_lt.mpr h1), if_pos h2]
    simp only [ON_TIME_BONUS, MAX_SCORE]
    split_ifs <;> omega
  · intro h1 h2
    simp only [Option.getD_some, ite_true]
    unfold calculateCreditBonus applyCreditBonus
    rw [if_neg (by omega : ¬ now < (s.loans lid).dueDate),
      if_neg (Nat.not_le.mpr h1), if_pos h2]
    simp only [LATE_PENALTY, MAX_SCORE]
    split_ifs <;> omega
  · intro h1
    simp only [Option.getD_some, ite_true]
    unfold calculateCreditBonus applyCreditBonus
    rw [if_neg (by omega : ¬ now < (s.loans lid).dueDate),
      if_neg (by omega : ¬ now ≤ (s.loans lid).dueDate + 3 * oneDay),
      if_neg (by omega : ¬ now ≤ (s.loans lid).dueDate + 7 * oneDay)]
    simp

/-- Witness for C5: member 2 repays loan 1 of tr5 early (time 300, due much
later), and the score rises from 50 to 65. -/
theorem repay_bonus_tiers_inst :
    (repayLoan tr5 2 1 (tr5.loans 1).totalRepayment 300).isSome = true ∧
    (((repayLoan tr5 2 1 (tr5.loans 1).totalRepayment 300).getD tr5).members 2).individualScore
      = 65 := by
  have h := repay_bonus_tiers tr5 2 1 (tr5.loans 1).totalRepayment 300 rfl rfl rfl rfl
  exact ⟨h.1, (h.2.1 (by decide)).trans (by decide)⟩

-- ============ CLAIM C6 ============

/-- Claim C6: for an admin caller, penalizeDefault succeeds exactly when the
loan is disbursed, not repaid, and now is strictly past dueDate + 14 days; on
success the borrower's individualScore drops by 50 (floored at 0, which is
exactly truncated Nat subtraction), the borrower is frozen, and every other
member of the borrower's circle (when the borrower has one, and the member
list has no duplicates, as every reachable circle does) loses 20 points
(floored at 0) while keeping its frozen/active flag. -/
theorem penalizeDefault_spec (s : State) (caller lid now : Nat) (hc : caller = s.admin) :
    ((penalizeDefault s caller lid now).isSome = true ↔
      ((s.loans lid).disbursed = true ∧ (s.loans lid).repaid = false ∧
       (s.loans lid).dueDate + 14 * oneDay < now)) ∧
    ((s.loans lid).disbursed = true → (s.loans lid).repaid = false →
     (s.loans lid).dueDate + 14 * oneDay < now →
     (s.circles ((s.members (s.loans lid).borrower).circleId)).members.Nodup →
      ((((penalizeDefault s caller lid now).getD s).members (s.loans lid).borrower).individualScore
        = (s.members (s.loans lid).borrower).individualScore - DEFAULT_PENALTY) ∧
      ((((penalizeDefault s caller lid now).getD s).members (s.loans lid).borrower).isActive
        = false) ∧
      (0 < (s.members (s.loans lid).borrower).circleId →
        ∀ a, a ∈ (s.circles ((s.members (s.loans lid).borrower).circleId)).members →
          a ≠ (s.loans lid).borrower →
          ((((penalizeDefault s caller lid now).getD s).members a).individualScore
            = (s.members a).individualScore - CIRCLE_DEFAULT_PENALTY) ∧
          ((((penalizeDefault s caller lid now).getD s).members a).isActive
            = (s.members a).isActive))) := by
  constructor
  · unfold penalizeDefault
    rw [guardIsSome]
    constructor
    · rintro ⟨-, h1, h2, h3⟩
      exact ⟨h1, h2, h3⟩
    · rintro ⟨h1, h2, h3⟩
      exact ⟨hc, h1, h2, h3⟩
  · intro hd hr ht hnd
    have hg : caller = s.admin ∧ (s.loans lid).disbursed = true ∧
        (s.loans lid).repaid = false ∧ (s.loans lid).dueDate + 14 * oneDay < now :=
      ⟨hc, hd, hr, ht⟩
    unfold penalizeDefault
    rw [if_pos hg]
    simp only [Option.getD_some]
    by_cases hcid : 0 < (s.members (s.loans lid).borrower).circleId
    · rw [if_pos hcid]
      have hmb : (penalizeCircle (slashedState s (s.loans lid).borrower)
            ((s.members (s.loans lid).borrower).circleId) (s.loans lid).borrower).members
            (s.loans lid).borrower
          = (slashedState s (s.loans lid).borrower).members (s.loans lid).borrower := by
        unfold penalizeCircle
        exact cascadeFold_members_defaulter _ _ _
      refine ⟨?_, ?_, ?_⟩
      · rw [hmb]
        unfold slashedState
        dsimp only
        rw [if_pos rfl]
        exact slashScore_eq _
      · rw [hmb]
        unfold slashedState
        dsimp only
        rw [if_pos rfl]
      · intro _ a ha hab
        have hma : (penalizeCircle (slashedState s (s.loans lid).borrower)
              ((s.members (s.loans lid).borrower).circleId) (s.loans lid).borrower).members a
            = { ((slashedState s (s.loans lid).borrower).members a) with
                individualScore := circlePenalty
                  (((slashedState s (s.loans lid).borrower).members a).individualScore) } := by
          unfold penalizeCircle
          exact cascadeFold_members_mem _ _ _ a hnd ha hab
        have hsa : (slashedState s (s.loans lid).borrower).members a = s.members a := by
          unfold slashedState
          dsimp only
          rw [if_neg hab]
        rw [hma, hsa]
        exact ⟨circlePenalty_eq _, rfl⟩
    · rw [if_neg hcid]
      refine ⟨?_, ?_, fun hcid2 => absurd hcid2 hcid⟩
      · unfold slashedState
        dsimp only
        rw [if_pos rfl]
        exact slashScore_eq _
      · unfold slashedState
        dsimp only
        rw [if_pos rfl]

/-- Witness for C6 at the concrete overdue-loan state pz0: the call succeeds,
the borrower drops from 100 to 50 and is frozen, peer 3 drops from 90 to 70
and peer 4 is floored from 15 to 0, both staying unfrozen. -/
theorem penalizeDefault_spec_inst :
    (penalizeDefault pz0 1 1 pzT).isSome = true ∧
    (((penalizeDefault pz0 1 1 pzT).getD pz0).members 2).individualScore = 50 ∧
    (((penalizeDefault pz0 1 1 pzT).getD pz0).members 2).isActive = false ∧
    (((penalizeDefault pz0 1 1 pzT).getD pz0).members 3).individualScore = 70 ∧
    (((penalizeDefault pz0 1 1 pzT).getD pz0).members 3).isActive = true ∧
    (((penalizeDefault pz0 1 1 pzT).getD pz0).members 4).individualScore = 0 := by
  have h := penalizeDefault_spec pz0 1 1 pzT rfl
  have heff := h.2 (by decide) (by decide) (by decide) (by decide)
  have h3 := heff.2.2 (by decide) 3 (by decide) (by decide)
  have h4 := heff.2.2 (by decide) 4 (by decide) (by decide)
  exact ⟨h.1.mpr ⟨by decide, by decide, by decide⟩,
    heff.1.trans (by decide), heff.2.1,
    h3.1.trans (by decide), h3.2.trans (by decide),
    h4.1.trans (by decide)⟩

-- ============ CLAIM C8 ============

-- Both C8 conclusions hold trivially for any operation that leaves the
-- circle record untouched.
theorem activeFlagFacts {s s2 : State} {cid : Nat} (heq : s2.circles cid = s.circles cid) :
    ((s.circles cid).isActive = true → (s2.circles cid).isActive = true) ∧
    (((s.circles cid).isActive = false ∧ (s2.circles cid).isActive = true) ↔
      ((s.circles cid).members.length = 2 ∧ (s2.circles cid).members.length = 3)) := by
  rw [heq]
  refine ⟨fun h => h, ?_⟩
  constructor
  · rintro ⟨hf, ht⟩
    rw [hf] at ht
    cases ht
  · rintro ⟨h2, h3⟩
    rw [h2] at h3
    cases h3

/-- Claim C8: over any single operation from a reachable state, a circle's
active flag never goes from true to false, and it flips from false to true
exactly when the circle's membership count goes from 2 to 3 (which only
joinCircle can do). -/
theorem circle_active_monotone_threshold (s s2 : State) (cid : Nat)
    (hr : Reachable s) (hs : Step s s2) :
    ((s.circles cid).isActive = true → (s2.circles cid).isActive = true) ∧
    (((s.circles cid).isActive = false ∧ (s2.circles cid).isActive = true) ↔
      ((s.circles cid).members.length = 2 ∧ (s2.circles cid).members.length = 3)) := by
  have hI := inv_reachable hr
  cases hs with
  | ofCreateCircle s2 sender value name now hsz hop =>
    obtain ⟨hg, he⟩ := guardSome hop
    subst he
    by_cases hcc : cid = s.circleCount + 1
    · have hold : (s.circles cid).isActive = false := hI.2.2.2.1 cid (by omega)
      refine ⟨?_, ?_⟩
      · intro h
        rw [hold] at h
        cases h
      · constructor
        · rintro ⟨-, ht⟩
          dsimp only at ht
          rw [if_pos hcc] at ht
          cases ht
        · rintro ⟨-, h3⟩
          dsimp only at h3
          rw [if_pos hcc] at h3
          cases h3
    · refine activeFlagFacts ?_
      dsimp only
      rw [if_neg hcc]
  | ofJoinCircle s2 sender cid0 value hsz hop =>
    obtain ⟨hg, he⟩ := guardSome hop
    subst he
    obtain ⟨hstake, hnoc, hex, hlen⟩ := hg
    by_cases hcc : cid = cid0
    · subst hcc
      have hiff := hI.2.2.1 cid
      constructor
      · intro h
        dsimp only
        rw [if_pos rfl]
        dsimp only
        rw [if_neg ?hcond]
        · exact h
        case hcond =>
          rintro ⟨-, hfalse⟩
          rw [h] at hfalse
          cases hfalse
      · dsimp only
        rw [if_pos rfl]
        dsimp only
        simp only [List.length_append, List.length_singleton]
        constructor
        · rintro ⟨hf, ht⟩
          have hlt : ¬ MIN_CIRCLE_MEMBERS ≤ (s.circles cid).members.length := by
            intro hle
            have := hiff.mpr hle
            rw [hf] at this
            cases this
          have hc3 : MIN_CIRCLE_MEMBERS ≤ (s.circles cid).members.length + 1 := by
            by_contra hnot
            rw [if_neg (fun hand => hnot hand.1)] at ht
            rw [hf] at ht
            cases ht
          simp only [MIN_CIRCLE_MEMBERS] at hlt hc3
          omega
        · rintro ⟨h2, h3⟩
          have hf : (s.circles cid).isActive = false := by
            cases hbo : (s.circles cid).isActive
            · rfl
            · have := hiff.mp hbo
              rw [h2] at this
              simp [MIN_CIRCLE_MEMBERS] at this
          refine ⟨hf, ?_⟩
          rw [if_pos ⟨by simp only [MIN_CIRCLE_MEMBERS]; omega, hf⟩]
    · refine activeFlagFacts ?_
      dsimp only
      rw [if_neg hcc]
  | ofRequestLoan s2 sender amount purpose now hsz hop =>
    obtain ⟨hg, he⟩ := guardSome hop
    subst he
    exact activeFlagFacts rfl
  | ofApproveLoan s2 caller lid now hsz hop =>
    obtain ⟨hg, he⟩ := guardSome hop
    subst he
    exact activeFlagFacts rfl
  | ofDisburseLoan s2 caller lid value now hsz hop =>
    obtain ⟨hg, he⟩ := guardSome hop
    subst he
    exact activeFlagFacts rfl
  | ofRepayLoan s2 sender lid value now hsz hop =>
    obtain ⟨hg, he⟩ := guardSome hop
    subst he
    exact activeFlagFacts rfl
  | ofPenalizeDefault s2 caller lid now hsz hop =>
    obtain ⟨hg, he⟩ := guardSome hop
    subst he
    refine activeFlagFacts ?_
    by_cases hcid : 0 < (s.members (s.loans lid).borrower).circleId
    · rw [if_pos hcid]
      unfold penalizeCircle
      exact congrFun (cascadeFold_frame _ _ _).2.2.2.2.2.1 cid
    · rw [if_neg hcid]
      rfl
  | ofDepositLiquidity s2 caller value hsz hop =>
    obtain ⟨hg, he⟩ := guardSome hop
    subst he
    exact activeFlagFacts rfl
  | ofWithdraw s2 caller amount hsz hop =>
    obtain ⟨hg, he⟩ := guardSome hop
    subst he
    exact activeFlagFacts rfl
  | ofSetDemoMode s2 caller enabled hsz hop =>
    obtain ⟨hg, he⟩ := guardSome hop
    subst he
    exact activeFlagFacts rfl
  | ofSetDemoLoanDuration s2 caller duration hsz hop =>
    obtain ⟨hg, he⟩ := guardSome hop
    subst he
    exact activeFlagFacts rfl
  | ofUnfreezeAccount s2 caller user hsz hop =>
    obtain ⟨hg, he⟩ := guardSome hop
    subst he
    exact activeFlagFacts rfl
  | ofTransferAdmin s2 caller newAdmin hsz hop =>
    obtain ⟨hg, he⟩ := guardSome hop
    subst he
    exact activeFlagFacts rfl
  | ofReceive value =>
    exact activeFlagFacts rfl

/-- Witness for C8 on the concrete trace: the join of member 4 takes circle 1
from 2 to 3 members and flips it from inactive to active. -/
theorem circle_active_monotone_threshold_inst :
    ((tr2.circles 1).isActive = false ∧ (tr3.circles 1).isActive = true) ∧
    ((tr2.circles 1).members.length = 2 ∧ (tr3.circles 1).members.length = 3) := by
  have h0 : Reachable tr0 := Reachable.init 1 (by decide)
  have h1 : Reachable tr1 :=
    Reachable.next h0 (Step.ofCreateCircle tr0 tr1 2 MIN_STAKE "alpha" 0 (by decide) rfl)
  have h2 : Reachable tr2 :=
    Reachable.next h1 (Step.ofJoinCircle tr1 tr2 3 1 MIN_STAKE (by decide) rfl)
  have hstep : Step tr2 tr3 := Step.ofJoinCircle tr2 tr3 4 1 MIN_STAKE (by decide) rfl
  have h := circle_active_monotone_threshold tr2 tr3 1 h2 hstep
  exact ⟨⟨by decide, by decide⟩, h.2.mp ⟨by decide, by decide⟩⟩

-- ============ CLAIM C9 ============

/-- Claim C9: the credit policy is the pure tier table of the trust score;
requestLoan stores interest = floor(amount * rate / 100) and totalRepayment =
amount + interest computed from the trust score current at request time; and
no later operation ever changes an existing loan's amount, interestAmount or
totalRepayment, so the terms are never re-evaluated. -/
theorem credit_policy_table :
    (∀ s u, getMaxLoanAmount s u =
      (if getTrustScore s u < 60 then 10 * etherUnit
       else if getTrustScore s u < 70 then 20 * etherUnit
       else if getTrustScore s u < 80 then 50 * etherUnit
       else if getTrustScore s u < 90 then 100 * etherUnit
       else 200 * etherUnit)) ∧
    (∀ s u, getInterestRate s u =
      (if getTrustScore s u < 60 then 6
       else if getTrustScore s u < 70 then 4
       else if getTrustScore s u < 80 then 4
       else if getTrustScore s u < 90 then 2
       else 2)) ∧
    (∀ s sender amount purpose now s2, requestLoan s sender amount purpose now = some s2 →
      (s2.loans (s.loanCount + 1)).amount = amount ∧
      (s2.loans (s.loanCount + 1)).interestAmount = amount * getInterestRate s sender / 100 ∧
      (s2.loans (s.loanCount + 1)).totalRepayment =
        amount + amount * getInterestRate s sender / 100) ∧
    (∀ s s2, Step s s2 → ∀ lid, lid ≤ s.loanCount →
      (s2.loans lid).amount = (s.loans lid).amount ∧
      (s2.loans lid).interestAmount = (s.loans lid).interestAmount ∧
      (s2.loans lid).totalRepayment = (s.loans lid).totalRepayment) := by
  refine ⟨fun s u => rfl, fun s u => rfl, ?_, ?_⟩
  · intro s sender amount purpose now s2 h
    obtain ⟨hg, he⟩ := guardSome h
    subst he
    dsimp only
    rw [if_pos rfl]
    exact ⟨rfl, rfl, rfl⟩
  · intro s s2 hstep lid hlid
    cases hstep with
    | ofCreateCircle s2 sender value name now hsz hop =>
      obtain ⟨hg, he⟩ := guardSome hop
      subst he
      exact ⟨rfl, rfl, rfl⟩
    | ofJoinCircle s2 sender cid value hsz hop =>
      obtain ⟨hg, he⟩ := guardSome hop
      subst he
      exact ⟨rfl, rfl, rfl⟩
    | ofRequestLoan s2 sender amount purpose now hsz hop =>
      obtain ⟨hg, he⟩ := guardSome hop
      subst he
      have hne : lid ≠ s.loanCount + 1 := by omega
      dsimp only
      rw [if_neg hne]
      exact ⟨rfl, rfl, rfl⟩
    | ofApproveLoan s2 caller lid0 now hsz hop =>
      obtain ⟨hg, he⟩ := guardSome hop
      subst he
      dsimp only
      by_cases hl : lid = lid0
      · rw [if_pos hl]
        subst hl
        exact ⟨rfl, rfl, rfl⟩
      · rw [if_neg hl]
        exact ⟨rfl, rfl, rfl⟩
    | ofDisburseLoan s2 caller lid0 value now hsz hop =>
      obtain ⟨hg, he⟩ := guardSome hop
      subst he
      dsimp only
      by_cases hl : lid = lid0
      · rw [if_pos hl]
        subst hl
        exact ⟨rfl, rfl, rfl⟩
      · rw [if_neg hl]
        exact ⟨rfl, rfl, rfl⟩
    | ofRepayLoan s2 sender lid0 value now hsz hop =>
      obtain ⟨hg, he⟩ := guardSome hop
      subst he
      dsimp only
      by_cases hl : lid = lid0
      · rw [if_pos hl]
        subst hl
        exact ⟨rfl, rfl, rfl⟩
      · rw [if_neg hl]
        exact ⟨rfl, rfl, rfl⟩
    | ofPenalizeDefault s2 caller lid0 now hsz hop =>
      obtain ⟨hg, he⟩ := guardSome hop
      subst he
      have heq : (if 0 < (s.members (s.loans lid0).borrower).circleId then
            penalizeCircle (slashedState s (s.loans lid0).borrower)
              ((s.members (s.loans lid0).borrower).circleId) (s.loans lid0).borrower
          else slashedState s (s.loans lid0).borrower).loans lid = s.loans lid := by
        by_cases hcid : 0 < (s.members (s.loans lid0).borrower).circleId
        · rw [if_pos hcid]
          unfold penalizeCircle
          exact congrFun (cascadeFold_frame _ _ _).2.2.2.2.2.2.1 lid
        · rw [if_neg hcid]
          rfl
      rw [heq]
      exact ⟨rfl, rfl, rfl⟩
    | ofDepositLiquidity s2 caller value hsz hop =>
      obtain ⟨hg, he⟩ := guardSome hop
      subst he
      exact ⟨rfl, rfl, rfl⟩
    | ofWithdraw s2 caller amount hsz hop =>
      obtain ⟨hg, he⟩ := guardSome hop
      subst he
      exact ⟨rfl, rfl, rfl⟩
    | ofSetDemoMode s2 caller enabled hsz hop =>
      obtain ⟨hg, he⟩ := guardSome hop
      subst he
      exact ⟨rfl, rfl, rfl⟩
    | ofSetDemoLoanDuration s2 caller duration hsz hop =>
      obtain ⟨hg, he⟩ := guardSome hop
      subst he
      exact ⟨rfl, rfl, rfl⟩
    | ofUnfreezeAccount s2 caller user hsz hop =>
      obtain ⟨hg, he⟩ := guardSome hop
      subst he
      exact ⟨rfl, rfl, rfl⟩
    | ofTransferAdmin s2 caller newAdmin hsz hop =>
      obtain ⟨hg, he⟩ := guardSome hop
      subst he
      exact ⟨rfl, rfl, rfl⟩
    | ofReceive value =>
      exact ⟨rfl, rfl, rfl⟩

/-- Witness for C9 on the concrete trace: member 2 has max loan 10 ether at
trust score 50, the requested 1-ether loan is stored with interest computed
from the rate at request time, and approval does not change the stored
amount. -/
theorem credit_policy_table_inst :
    getMaxLoanAmount tr3 2 = 10 * etherUnit ∧
    (tr4.loans 1).interestAmount = etherUnit * getInterestRate tr3 2 / 100 ∧
    (tr5.loans 1).amount = (tr4.loans 1).amount := by
  have h := credit_policy_table
  refine ⟨(h.1 tr3 2).trans (by decide), ?_, ?_⟩
  · exact (h.2.2.1 tr3 2 etherUnit "rent" 100 tr4 rfl).2.1
  · exact (h.2.2.2 tr4 tr5
      (Step.ofApproveLoan tr4 tr5 1 1 200 (by decide) rfl) 1 (by decide)).1

-- ============ CLAIM C10 ============

/-- Claim C10 (counterexample): the pool guard of approveLoan checks the
current contract balance, not the total staked bonds; after one 1-ether
disbursement from the 1.5-ether stake pool, a second 1-ether loan (still at
most the total staked bonds, in a state funded only by createCircle and
joinCircle stakes) is rejected by approveLoan. -/
theorem stakes_not_sufficient_for_approve :
    createCircle tr0 2 MIN_STAKE "alpha" 0 = some tr1 ∧
    joinCircle tr1 3 1 MIN_STAKE = some tr2 ∧
    joinCircle tr2 4 1 MIN_STAKE = some tr3 ∧
    requestLoan tr3 2 etherUnit "rent" 100 = some tr4 ∧
    approveLoan tr4 1 1 200 = some tr5 ∧
    requestLoan tr5 3 etherUnit "food" 300 = some tr6 ∧
    (tr6.circles 1).totalStake = 3 * MIN_STAKE ∧
    (tr6.loans 2).borrower = 3 ∧
    (tr6.loans 2).approved = false ∧
    (tr6.loans 2).disbursed = false ∧
    (tr6.loans 2).amount ≤ (tr6.circles 1).totalStake ∧
    approveLoan tr6 1 2 400 = none := by
  exact ⟨rfl, rfl, rfl, rfl, rfl, rfl, by decide, by decide, by decide, by decide,
    by decide, rfl⟩

/-- Claim C10 (amended): the pool balance is the single contract balance:
createCircle and joinCircle stakes and loan repayments are deposited into it;
approveLoan succeeds for an existing unapproved, undisbursed loan whose
principal is at most the current balance (total stakes minus prior
disbursements and withdrawals plus repayments and deposits) and debits it;
and an admin withdrawal of any positive amount up to the current balance
succeeds — so members' trust bonds can fund disbursements and withdrawals. -/
theorem single_balance_accounting :
    (∀ s sender value name now s2, createCircle s sender value name now = some s2 →
      s2.balance = s.balance + value) ∧
    (∀ s sender cid value s2, joinCircle s sender cid value = some s2 →
      s2.balance = s.balance + value) ∧
    (∀ s sender lid value now s2, repayLoan s sender lid value now = some s2 →
      s2.balance = s.balance + value) ∧
    (∀ s caller lid now, caller = s.admin → (s.loans lid).borrower ≠ 0 →
      (s.loans lid).approved = false → (s.loans lid).disbursed = false →
      (s.loans lid).amount ≤ s.balance →
      (approveLoan s caller lid now).isSome = true ∧
      ((approveLoan s caller lid now).getD s).balance = s.balance - (s.loans lid).amount) ∧
    (∀ s caller amount, caller = s.admin → 0 < amount → amount ≤ s.balance →
      (withdraw s caller amount).isSome = true ∧
      ((withdraw s caller amount).getD s).balance = s.balance - amount) := by
  refine ⟨?_, ?_, ?_, ?_, ?_⟩
  · intro s sender value name now s2 h
    obtain ⟨hg, he⟩ := guardSome h
    subst he
    rfl
  · intro s sender cid value s2 h
    obtain ⟨hg, he⟩ := guardSome h
    subst he
    rfl
  · intro s sender lid value now s2 h
    obtain ⟨hg, he⟩ := guardSome h
    subst he
    rfl
  · intro s caller lid now hc hb happ hdis hbal
    have hg : caller = s.admin ∧ (s.loans lid).borrower ≠ 0 ∧ (s.loans lid).approved = false ∧
        (s.loans lid).disbursed = false ∧ (s.loans lid).amount ≤ s.balance :=
      ⟨hc, hb, happ, hdis, hbal⟩
    unfold approveLoan
    rw [if_pos hg]
    exact ⟨rfl, rfl⟩
  · intro s caller amount hc hpos hle
    have hg : caller = s.admin ∧ 0 < amount ∧ amount ≤ s.balance := ⟨hc, hpos, hle⟩
    unfold withdraw
    rw [if_pos hg]
    exact ⟨rfl, rfl⟩

/-- Witness for the amended C10 theorem on the concrete trace: the first
approval succeeds and debits the stake-funded balance by the principal, and an
admin withdrawal of the remaining 0.5 ether succeeds. -/
theorem single_balance_accounting_inst :
    ((approveLoan tr4 1 1 200).isSome = true ∧
     ((approveLoan tr4 1 1 200).getD tr4).balance = tr4.balance - (tr4.loans 1).amount) ∧
    ((withdraw tr5 1 MIN_STAKE).isSome = true ∧
     ((withdraw tr5 1 MIN_STAKE).getD tr5).balance = tr5.balance - MIN_STAKE) := by
  refine ⟨single_balance_accounting.2.2.2.1 tr4 1 1 200 rfl (by decide) (by decide)
      (by decide) (by decide),
    single_balance_accounting.2.2.2.2 tr5 1 MIN_STAKE rfl (by decide) (by decide)⟩

end TrustCircles
